import Mathlib

/-! Shallow embedding of `src/clipboard.js`.

The file embeds the public entry point `window.clipboard` and the four
operations of `clipboardMethods` (`copy`, `insert`, `clear`, `isSupported`)
as pure functions over an explicit host environment (what the browser
answers) and an explicit world (children of the document root, node
counter, effect trace). Definitions come first, then the lemmas and the
theorems on them. -/

namespace Clipboard

/-! ## JavaScript values -/

/-- A JavaScript number as this program observes it: the program only ever
converts a number to a string (`'' + v`, property key) and tests its
truthiness (`!v`). `repr` is the image under Number::toString, `falsy` says
whether it is `0`, `-0` or `NaN`. -/
structure JSNum where
  repr : String
  falsy : Bool
deriving DecidableEq, Repr

/-- A value `copy` reads from a property of a node: a string, `null` or
`undefined`. -/
inductive Val where
  | undefined
  | null
  | str (s : String)
deriving DecidableEq, Repr

/-- A node as `copy` reads it (lines 62-73). Lines 43-49 admit every `Node`
and every item of a collection or of a jQuery object, so each property may
be missing: `tagName` is `none` when the node has none (a Text, Comment or
Document node gives `undefined`), `attrs` is `none` when the node has no
`getAttribute` method (every node that is not an Element) and is the
attribute table otherwise, `value` is `undefined` on anything that is not an
HTML form control, and `textContent` is `null` on a Document or DocumentType
node. -/
structure Node where
  tagName : Option String
  attrs : Option (List (String × String))
  value : Val
  textContent : Val
deriving DecidableEq, Repr

/-- An HTML element: `getAttribute` exists, and the editable `value` (read
only under the tag names INPUT and TEXTAREA) and `textContent` are
strings. -/
structure Elem where
  tagName : String
  attrs : List (String × String)
  value : String
  textContent : String
deriving DecidableEq, Repr

/-- The node an HTML element is. -/
def Elem.toNode (e : Elem) : Node :=
  { tagName := some e.tagName, attrs := some e.attrs, value := .str e.value,
    textContent := .str e.textContent }

/-- How the `instanceof` tests of `copy` (lines 43-49) classify an object. -/
inductive Host where
  /-- neither a jQuery object, nor a Node, nor a native collection -/
  | plain
  /-- an instance of `Node` -/
  | node (n : Node)
  /-- an `HTMLAllCollection`, `HTMLCollection` or `NodeList` -/
  | collection (ns : List Node)
  /-- an instance of `window.jQuery` -/
  | jquery (ns : List Node)
deriving DecidableEq, Repr

/-- JavaScript values reaching the program. An object carries the result of
its string conversion (`none`: the conversion throws a TypeError, as for
`Object.create(null)`) and its host classification; the plain object `{}`
is `obj (some "[object Object]") Host.plain`. The same string serves
`'' + v` and the property key `table[v]`, as it does for plain objects,
arrays and DOM objects. -/
inductive JSVal where
  | undefined
  | null
  | bool (b : Bool)
  | num (n : JSNum)
  | str (s : String)
  | arr (xs : List JSVal)
  | obj (conv : Option String) (host : Host)

/-- Results of `typeof`. -/
inductive JSType where
  | undefined | object | boolean | number | string
deriving DecidableEq, Repr

/-- The `typeof` operator. -/
def JSVal.typeof : JSVal → JSType
  | .undefined => .undefined
  | .null => .object
  | .bool _ => .boolean
  | .num _ => .number
  | .str _ => .string
  | .arr _ => .object
  | .obj _ _ => .object

/-- ToBoolean, as used by `!mixed`, `!!trim` and `if ( x )`. -/
def JSVal.truthy : JSVal → Bool
  | .undefined => false
  | .null => false
  | .bool b => b
  | .num n => !n.falsy
  | .str s => s != ""
  | .arr _ => true
  | .obj _ _ => true

/-- The test `v === undefined`. -/
def JSVal.isUndefined : JSVal → Bool
  | .undefined => true
  | _ => false

/-- The test `v === ''`. -/
def JSVal.isEmptyStr : JSVal → Bool
  | .str s => s == ""
  | _ => false

mutual
/-- ToString, as performed by `'' + v` and by a property access `table[v]`;
`none` when the conversion throws. An array converts through
Array.prototype.join with the separator `,`. -/
def JSVal.toStr : JSVal → Option String
  | .undefined => some "undefined"
  | .null => some "null"
  | .bool b => some (if b then "true" else "false")
  | .num n => some n.repr
  | .str s => some s
  | .arr xs => JSVal.joinItems xs
  | .obj conv _ => conv
/-- Array.prototype.join over the items: the first item, then every further
item behind a `,`. -/
def JSVal.joinItems : List JSVal → Option String
  | [] => some ""
  | x :: rest =>
    match JSVal.itemStr x, JSVal.joinRest rest with
    | some a, some b => some (a ++ b)
    | _, _ => none
/-- The items after the first one, each behind the separator. -/
def JSVal.joinRest : List JSVal → Option String
  | [] => some ""
  | x :: rest =>
    match JSVal.itemStr x, JSVal.joinRest rest with
    | some a, some b => some ("," ++ a ++ b)
    | _, _ => none
/-- The string one array item contributes to `join`: `undefined` and `null`
items give the empty string, every other item its ToString. -/
def JSVal.itemStr : JSVal → Option String
  | .undefined => some ""
  | .null => some ""
  | .bool b => some (if b then "true" else "false")
  | .num n => some n.repr
  | .str s => some s
  | .arr xs => JSVal.joinItems xs
  | .obj conv _ => conv
end

/-! ## Host environment and world -/

/-- Errors a call can raise. -/
inductive JSError where
  | typeError
  | syntaxError
  /-- the object `new Error( msg )` -/
  | error (msg : String)
deriving DecidableEq, Repr

/-- What a call gives back: a boolean, a raised error, or the result of an
inherited `Object.prototype` function the dispatcher applied (`foreign`). -/
inductive Outcome where
  | returned (b : Bool)
  | threw (e : JSError)
  | foreign (key : String)
deriving DecidableEq, Repr

/-- How `document.execCommand( 'copy' )` ends: it returns a boolean (`false`
when the environment rejects the command) or it throws. -/
inductive Exec where
  | returns (ok : Bool)
  | throws
deriving DecidableEq, Repr

/-- A property the dispatch table inherits through its prototype chain. -/
inductive Inherited where
  /-- a function, such as `toString` -/
  | callable
  /-- a truthy value without `apply`, such as `__proto__` -/
  | object
  /-- a falsy value other than `undefined` -/
  | falsy
deriving DecidableEq, Repr

/-- The host environment of one call. -/
structure Env where
  /-- the value of `!!document.queryCommandSupported` -/
  hasQueryCommandSupported : Bool
  /-- the value of `!!document.queryCommandSupported( 'copy' )` -/
  queryCommandSupportedCopy : Bool
  /-- the value of `!!window.jQuery` -/
  hasJQuery : Bool
  /-- the function `document.querySelectorAll`; `none` when it throws a SyntaxError -/
  querySelectorAll : String → Option (List Node)
  /-- whether `tempTextArea.select()` throws -/
  selectThrows : Bool
  /-- how `document.execCommand( 'copy' )` ends -/
  execCommandCopy : Exec
  /-- properties `clipboardMethods` inherits from its prototype chain -/
  inherited : String → Option Inherited

/-- Observable effects, in program order. Nodes the program creates are
named by a serial number. -/
inductive Event where
  | warn (msg : String)
  | error (msg : String)
  | getAttribute (node : Node) (name : String)
  | createElement (id : Nat)
  | appendChild (id : Nat)
  | setValue (id : Nat) (payload : String)
  | select (id : Nat)
  /-- the command `execCommand( 'copy' )` invoked while the scratch textarea holding
  `payload` is selected -/
  | execCopy (payload : String)
  | removeChild (id : Nat)
deriving DecidableEq, Repr

/-- The world a call runs in: the children of the `html` root (by node
identity), the identity `createElement` hands out next, and the effects so
far. -/
structure World where
  children : List Nat
  nextId : Nat
  trace : List Event
deriving DecidableEq, Repr

/-- Every attached node was created before: `createElement` gives a node
that is not yet in the tree. -/
def World.WF (w : World) : Prop := ∀ c ∈ w.children, c < w.nextId

instance (w : World) : Decidable w.WF := by
  unfold World.WF; infer_instance

/-- Payloads handed to the copy command, in order. -/
def writes (t : List Event) : List String :=
  t.filterMap fun e => match e with
    | .execCopy p => some p
    | _ => none

/-- Strings placed in a scratch textarea, in order. -/
def placed (t : List Event) : List String :=
  t.filterMap fun e => match e with
    | .setValue _ p => some p
    | _ => none

/-- Attribute lookups performed, in order. -/
def lookups (t : List Event) : List (Node × String) :=
  t.filterMap fun e => match e with
    | .getAttribute n a => some (n, a)
    | _ => none

/-- Nodes created, in order. -/
def created (t : List Event) : List Nat :=
  t.filterMap fun e => match e with
    | .createElement i => some i
    | _ => none

/-! ## Whitespace trimming (line 78) -/

/-- The regular-expression class `\s` of ECMAScript: the WhiteSpace code
points (tab, vertical tab, form feed, space, no-break space, the byte order
mark and the space separators of Unicode) and the LineTerminator code
points. -/
def isRegexSpace (c : Char) : Bool :=
  let n := c.toNat
  n == 0x09 || n == 0x0A || n == 0x0B || n == 0x0C || n == 0x0D || n == 0x20
    || n == 0xA0 || n == 0x1680 || (0x2000 ≤ n && n ≤ 0x200A) || n == 0x2028
    || n == 0x2029 || n == 0x202F || n == 0x205F || n == 0x3000 || n == 0xFEFF

/-- The class `[\s\uFEFF\xA0]` of line 78. -/
def isTrimChar (c : Char) : Bool :=
  isRegexSpace c || c.toNat == 0xFEFF || c.toNat == 0xA0

/-- The replacement `replace( /^[\s\uFEFF\xA0]+|[\s\uFEFF\xA0]+$/g, '' )`: the
first alternative deletes the run of class characters at the start, the
second the run that ends the string. -/
def trimReplace (s : String) : String :=
  ⟨((s.data.dropWhile isTrimChar).reverse.dropWhile isTrimChar).reverse⟩

/-! ## The operations of `clipboardMethods` -/

/-- The sentinel `'\0'` of lines 123 and 168. -/
def sentinel : String := "\x00"

/-- World after `console.warn`, `console.error` and the other effects. -/
def World.emit (w : World) (es : List Event) : World :=
  { w with trace := w.trace ++ es }

/-- Line 189: `!!document.queryCommandSupported &&
!!document.queryCommandSupported( 'copy' )`. -/
def probe (env : Env) : Bool :=
  env.hasQueryCommandSupported && env.queryCommandSupportedCopy

/-- The text of line 192. -/
def unsupportedWarning : String :=
  "Clipboard.js:\n\tThis browser doesn\x27t support functionality which is necessary for proper operations!"

/-- Method `isSupported` (lines 188-196). -/
def isSupported (env : Env) (w : World) : Bool × World :=
  let support := probe env
  if !support then
    (support, w.emit [.warn unsupportedWarning])
  else
    (support, w)

/-- The write step shared, text for text, by `copy` (lines 90-109),
`insert` (lines 129-148) and `clear` (lines 161-180): create the textarea,
append it to the `html` root, set its value, then inside `try` select it,
run the copy command, remove it and return true; in `catch` log, remove it
and return false. `what` is the verb of the logged message. The three style
assignments have no effect this model observes. -/
def write (env : Env) (w : World) (what : String) (payload : String) : Outcome × World :=
  let tempTextArea := w.nextId
  let w1 : World :=
    { children := w.children ++ [tempTextArea]
      nextId := tempTextArea + 1
      trace := w.trace ++ [.createElement tempTextArea, .appendChild tempTextArea,
        .setValue tempTextArea payload] }
  let caught (w2 : World) : Outcome × World :=
    (.returned false,
      { w2 with
        children := w2.children.erase tempTextArea
        trace := w2.trace ++ [.error ("Fallback: Oops, unable to " ++ what),
          .removeChild tempTextArea] })
  if env.selectThrows then
    caught (w1.emit [.select tempTextArea])
  else
    match env.execCommandCopy with
    | .throws => caught (w1.emit [.select tempTextArea, .execCopy payload])
    | .returns _ =>
      (.returned true,
        { w1 with
          children := w1.children.erase tempTextArea
          trace := w1.trace ++ [.select tempTextArea, .execCopy payload,
            .removeChild tempTextArea] })

/-- Whether line 62 calls `getAttribute`:
`typeof soughtAttribute === 'string' && soughtAttribute !== ''`. -/
def soughtName (soughtAttribute : JSVal) : Option String :=
  match soughtAttribute with
  | .str a => if a != "" then some a else none
  | _ => none

/-- Line 62: `attributeValue`. The outer `none` is the TypeError of calling
`node.getAttribute` on a node that has no such method; inside, `none` stands
for `undefined` and for the `null` of a missing attribute. -/
def attributeValue (soughtAttribute : JSVal) (node : Node) : Option (Option String) :=
  match soughtName soughtAttribute with
  | some a =>
    match node.attrs with
    | some table => some (table.lookup a)
    | none => none
  | none => some none

/-- Lines 68-73: the editable value under the tag names INPUT and TEXTAREA,
the text content otherwise. -/
def fallbackValue (node : Node) : Val :=
  if node.tagName == some "INPUT" || node.tagName == some "TEXTAREA" then node.value
  else node.textContent

/-- Lines 62-73: `receivedValue` before trimming; `none` is the TypeError of
line 62. -/
def receivedValue (soughtAttribute : JSVal) (node : Node) : Option Val :=
  match attributeValue soughtAttribute node with
  | none => none
  | some (some v) => if v != "" then some (.str v) else some (fallbackValue node)
  | some none => some (fallbackValue node)

/-- Lines 76-79: with `trim` set, the call `receivedValue.replace`; `none` is
the TypeError of calling `replace` on `null` or `undefined`. -/
def trimValue (trim : Bool) (received : Val) : Option Val :=
  if trim then
    match received with
    | .str s => some (.str (trimReplace s))
    | _ => none
  else some received

/-- Line 57: `typeof soughtAttribute === 'boolean' && trim === undefined ?
soughtAttribute : !!trim`, read as a condition by line 76. -/
def effectiveTrim (soughtAttribute trim : JSVal) : Bool :=
  if soughtAttribute.typeof == .boolean && trim.isUndefined then soughtAttribute.truthy
  else trim.truthy

/-- One pass of the loop body (lines 62-83) over `receivedValues` and the
effects; `none` in the first component is a TypeError leaving the loop. Line
81 pushes every value that is neither `undefined` nor the empty string, so
`null` is pushed. -/
def copyStep (soughtAttribute : JSVal) (trim : Bool)
    (acc : List Val × List Event) (node : Node) : Option (List Val) × List Event :=
  let looked : List Event :=
    match soughtName soughtAttribute, node.attrs with
    | some a, some _ => [.getAttribute node a]
    | _, _ => []
  match receivedValue soughtAttribute node with
  | none => (none, acc.2 ++ looked)
  | some received =>
    match trimValue trim received with
    | none => (none, acc.2 ++ looked)
    | some received =>
      if received != .undefined && received != .str "" then
        (some (acc.1 ++ [received]), acc.2 ++ looked)
      else (some acc.1, acc.2 ++ looked)

/-- The loop of lines 61-84 from the state `acc`: every node of the
sequence, in index order, until one pass throws. -/
def copyLoop (soughtAttribute : JSVal) (trim : Bool) :
    List Node → List Val × List Event → Option (List Val) × List Event
  | [], acc => (some acc.1, acc.2)
  | node :: rest, acc =>
    match copyStep soughtAttribute trim acc node with
    | (some values, events) => copyLoop soughtAttribute trim rest (values, events)
    | (none, events) => (none, events)

/-- What lines 40-51 make of the selector. -/
inductive Normalized where
  /-- the call of `querySelectorAll` threw -/
  | threw
  /-- line 50: `return false` -/
  | rejected
  | nodes (ns : List Node)
deriving DecidableEq, Repr

/-- Lines 40-51. -/
def normalize (env : Env) (selector : JSVal) : Normalized :=
  match selector with
  | .str q =>
    match env.querySelectorAll q with
    | some ns => .nodes ns
    | none => .threw
  | .obj _ (.jquery ns) => if env.hasJQuery then .nodes ns else .rejected
  | .obj _ (.node n) => .nodes [n]
  | .obj _ (.collection ns) => .nodes ns
  | _ => .rejected

/-- The string an item contributes to `Array.prototype.join`: `null` and
`undefined` give the empty string. -/
def Val.joinStr : Val → String
  | .str s => s
  | _ => ""

/-- The call `receivedValues.join` of line 97, with a line feed as the
separator. -/
def joinLines (vs : List Val) : String := "\n".intercalate (vs.map Val.joinStr)

/-- Method `copy` (lines 35-110). The probe `clipboard( 'isSupported' )`
reaches `isSupported` through the dispatcher. A TypeError of the loop leaves
the method before line 90. -/
def copy (env : Env) (w : World) (selector soughtAttribute trim : JSVal) : Outcome × World :=
  let (support, w) := isSupported env w
  if !support then (.returned false, w)
  else
    match normalize env selector with
    | .threw => (.threw .syntaxError, w)
    | .rejected => (.returned false, w)
    | .nodes ns =>
      if ns.length == 0 then (.returned false, w)
      else
        let trim := effectiveTrim soughtAttribute trim
        match copyLoop soughtAttribute trim ns ([], []) with
        | (none, looked) => (.threw .typeError, w.emit looked)
        | (some receivedValues, looked) =>
          let w := w.emit looked
          if receivedValues.length == 0 then (.returned false, w)
          else write env w "copy" (joinLines receivedValues)

/-- Line 123: `string === undefined || string === '' ? '\0' : '' + string`;
`none` when the conversion throws. -/
def insertPayload (string : JSVal) : Option String :=
  if string.isUndefined || string.isEmptyStr then some sentinel
  else
    match string.toStr with
    | some s => some ("" ++ s)
    | none => none

/-- Method `insert` (lines 118-149). After line 123 `string` is a string, so
the test `typeof string !== 'string'` of line 125 is false. -/
def insert (env : Env) (w : World) (string : JSVal) : Outcome × World :=
  let (support, w) := isSupported env w
  if !support then (.returned false, w)
  else
    match insertPayload string with
    | none => (.threw .typeError, w)
    | some string =>
      if (JSVal.str string).typeof != .string then (.returned false, w)
      else write env w "insert" string

/-- Method `clear` (lines 156-181). -/
def clear (env : Env) (w : World) : Outcome × World :=
  let (support, w) := isSupported env w
  if !support then (.returned false, w)
  else write env w "clear" sentinel

/-! ## The dispatcher `window.clipboard` (lines 13-23) -/

/-- The own properties of `clipboardMethods`. -/
inductive Method where
  | copy | insert | clear | isSupported
deriving DecidableEq, Repr

/-- The value of `clipboardMethods[ key ]`. -/
inductive Slot where
  | own (m : Method)
  | inherited (i : Inherited)
  | undefined
deriving DecidableEq, Repr

/-- Property lookup on `clipboardMethods`: the four own properties, then the
prototype chain. -/
def lookupMethod (env : Env) (key : String) : Slot :=
  if key == "copy" then .own .copy
  else if key == "insert" then .own .insert
  else if key == "clear" then .own .clear
  else if key == "isSupported" then .own .isSupported
  else
    match env.inherited key with
    | some i => .inherited i
    | none => .undefined

/-- ToBoolean of a slot. -/
def Slot.truthy : Slot → Bool
  | .own _ => true
  | .inherited .callable => true
  | .inherited .object => true
  | .inherited .falsy => false
  | .undefined => false

/-- The `i`-th argument, `undefined` when it is not passed. -/
def arg (args : List JSVal) (i : Nat) : JSVal := args.getD i .undefined

/-- The call `clipboardMethods.copy.apply( this, args )`. -/
def applyCopy (env : Env) (w : World) (args : List JSVal) : Outcome × World :=
  copy env w (arg args 0) (arg args 1) (arg args 2)

/-- The call `clipboardMethods[ m ].apply( this, args )` for an own method. -/
def applyMethod (env : Env) (w : World) (m : Method) (args : List JSVal) : Outcome × World :=
  match m with
  | .copy => applyCopy env w args
  | .insert => insert env w (arg args 0)
  | .clear => clear env w
  | .isSupported =>
    let (support, w) := isSupported env w
    (.returned support, w)

/-- The message of line 21. -/
def unknownMethod (key : String) : JSError :=
  .error ("Method " ++ key ++ " doesn\x27t exists for clipboard")

/-- The public entry point `window.clipboard` (lines 13-23), called with the
argument list `args`; `mixed` is the first argument. -/
def clipboard (env : Env) (w : World) (args : List JSVal) : Outcome × World :=
  let mixed := arg args 0
  match mixed.toStr with
  | none => (.threw .typeError, w)
  | some key =>
    let slot := lookupMethod env key
    if slot.truthy then
      match slot with
      | .own m => applyMethod env w m (args.drop 1)
      | .inherited .callable => (.foreign key, w)
      | _ => (.threw .typeError, w)
    else if slot == .undefined || mixed.typeof == .object || !mixed.truthy then
      applyCopy env w args
    else
      (.threw (unknownMethod key), w)

/-! ## Statement vocabulary -/

/-- The statements of the `try` block (`select()`, then
`execCommand( 'copy' )`) run to the end without throwing. -/
def tryCompletes (env : Env) : Bool :=
  !env.selectThrows && env.execCommandCopy != .throws

/-- The second argument of `copy` for an optional attribute name. -/
def attrArg : Option String → JSVal
  | some a => .str a
  | none => .undefined

/-- The value the specification extracts from an element before trimming:
the sought attribute when a non-empty name is configured and the element has
it set to a non-empty string, else the editable value of an input-like
control, else the text content. -/
def elemValue (soughtAttribute : JSVal) (e : Elem) : String :=
  let fallback := if e.tagName = "INPUT" ∨ e.tagName = "TEXTAREA" then e.value
    else e.textContent
  match soughtName soughtAttribute with
  | some a =>
    match e.attrs.lookup a with
    | some v => if v = "" then fallback else v
    | none => fallback
  | none => fallback

/-- One extracted value under a trim flag. -/
def extracted (soughtAttribute : JSVal) (trim : Bool) (e : Elem) : String :=
  if trim then trimReplace (elemValue soughtAttribute e)
  else elemValue soughtAttribute e

/-- The resolved value sequence as the specification words it: in node
order, each extracted value (trimmed when the flag is set), the empty ones
removed. -/
def resolvedValues (soughtAttribute : JSVal) (trim : Bool) (es : List Elem) : List String :=
  (es.map (extracted soughtAttribute trim)).filter (fun v => v != "")

/-- Properties of the standard `Object.prototype`, all of them truthy. -/
def objectPrototype (key : String) : Option Inherited :=
  if key ∈ ["constructor", "toString", "toLocaleString", "valueOf", "hasOwnProperty",
      "isPrototypeOf", "propertyIsEnumerable", "__defineGetter__", "__defineSetter__",
      "__lookupGetter__", "__lookupSetter__"] then some .callable
  else if key == "__proto__" then some .object
  else none

/-- A text element. -/
def textElem (tag text : String) : Elem :=
  { tagName := tag, attrs := [], value := "", textContent := text }

/-- A supporting browser whose page holds three `P` elements with the text
contents `a`, ` b ` and the empty string, found by the selector `p`; the
empty selector and the selector `p[` are syntax errors. -/
def browser : Env :=
  { hasQueryCommandSupported := true
    queryCommandSupportedCopy := true
    hasJQuery := false
    querySelectorAll := fun q =>
      if q == "p" then
        some ([textElem "P" "a", textElem "P" " b ", textElem "P" ""].map Elem.toNode)
      else if q == "" || q == "p[" then none
      else some []
    selectThrows := false
    execCommandCopy := .returns true
    inherited := objectPrototype }

/-- The page before a call: `head` and `body` under the root. -/
def page : World := { children := [0, 1], nextId := 2, trace := [] }

/-- The browser of `browser`, where the environment rejects the copy
command: `execCommand( 'copy' )` returns false. -/
def rejecting : Env := { browser with execCommandCopy := .returns false }

/-- The browser of `browser`, where `execCommand( 'copy' )` throws. -/
def throwing : Env := { browser with execCommandCopy := .throws }

/-- A browser without `document.queryCommandSupported`. -/
def legacy : Env := { browser with hasQueryCommandSupported := false }

/-- The `getAttribute` calls of the loop over a sequence of elements. -/
def lookedUp (soughtAttribute : JSVal) (es : List Elem) : List Event :=
  match soughtName soughtAttribute with
  | some a => es.map fun e => Event.getAttribute e.toNode a
  | none => []

/-- The Document node: no `tagName`, no `getAttribute`, `textContent` null. -/
def documentNode : Node :=
  { tagName := none, attrs := none, value := .undefined, textContent := .null }

/-- A Text node: no `tagName`, no `getAttribute`, its data as text content. -/
def textNode (text : String) : Node :=
  { tagName := none, attrs := none, value := .undefined, textContent := .str text }

/-- The argument `document`, an instance of `Node`. -/
def documentArg : JSVal := .obj (some "[object HTMLDocument]") (.node documentNode)

/-- The `childNodes` of an element `<div>hi<p>a</p></div>`: a NodeList
whose first item is a Text node. -/
def childNodesArg : JSVal :=
  .obj (some "[object NodeList]") (.collection [textNode "hi", (textElem "P" "a").toNode])

/-- A plain array of two `P` elements. -/
def nodeArrayArg : JSVal :=
  .arr [.obj (some "[object HTMLParagraphElement]") (.node (textElem "P" "a").toNode),
    .obj (some "[object HTMLParagraphElement]") (.node (textElem "P" "b").toNode)]

/-- An `INPUT` element with `data-copy="42"`, an editable value and a text
content. -/
def inputElem : Elem :=
  { tagName := "INPUT", attrs := [("data-copy", "42")], value := "typed", textContent := "text" }

/-- The plain object `{}`: `'' + {}` is `[object Object]`. -/
def emptyObject : JSVal := .obj (some "[object Object]") .plain

/-- Every effect of the list is a `getAttribute` call. -/
def onlyLookups (es : List Event) : Prop :=
  ∀ e ∈ es, ∃ n a, e = Event.getAttribute n a

/-! ## Lemmas on the probe and the write step -/

theorem isSupported_true {env : Env} (w : World) (h : probe env = true) :
    isSupported env w = (true, w) := by
  simp [isSupported, h]

theorem isSupported_false {env : Env} (w : World) (h : probe env = false) :
    isSupported env w = (false, w.emit [.warn unsupportedWarning]) := by
  simp [isSupported, h]

@[simp] theorem writes_append (s t : List Event) : writes (s ++ t) = writes s ++ writes t := by
  simp [writes, List.filterMap_append]

@[simp] theorem placed_append (s t : List Event) : placed (s ++ t) = placed s ++ placed t := by
  simp [placed, List.filterMap_append]

@[simp] theorem lookups_append (s t : List Event) :
    lookups (s ++ t) = lookups s ++ lookups t := by
  simp [lookups, List.filterMap_append]

@[simp] theorem created_append (s t : List Event) :
    created (s ++ t) = created s ++ created t := by
  simp [created, List.filterMap_append]

theorem erase_fresh (cs : List Nat) (t : Nat) (h : ∀ c ∈ cs, c < t) :
    (cs ++ [t]).erase t = cs := by
  have hn : t ∉ cs := fun hm => Nat.lt_irrefl _ (h t hm)
  rw [List.erase_append_right _ hn]
  simp

theorem write_fst (env : Env) (w : World) (what payload : String) :
    (write env w what payload).1 = .returned (tryCompletes env) := by
  unfold write tryCompletes
  cases hs : env.selectThrows <;> cases he : env.execCommandCopy <;> simp

theorem write_children (env : Env) (w : World) (what payload : String) (hw : w.WF) :
    (write env w what payload).2.children = w.children := by
  have h := erase_fresh w.children w.nextId hw
  unfold write
  cases hs : env.selectThrows <;> cases he : env.execCommandCopy <;> simp [World.emit, h]

theorem write_nextId (env : Env) (w : World) (what payload : String) :
    (write env w what payload).2.nextId = w.nextId + 1 := by
  unfold write
  cases hs : env.selectThrows <;> cases he : env.execCommandCopy <;> simp [World.emit]

theorem write_writes (env : Env) (w : World) (what payload : String) :
    writes (write env w what payload).2.trace
      = writes w.trace ++ (if env.selectThrows then [] else [payload]) := by
  unfold write
  cases hs : env.selectThrows <;> cases he : env.execCommandCopy <;>
    simp [World.emit, writes]

theorem write_placed (env : Env) (w : World) (what payload : String) :
    placed (write env w what payload).2.trace = placed w.trace ++ [payload] := by
  unfold write
  cases hs : env.selectThrows <;> cases he : env.execCommandCopy <;>
    simp [World.emit, placed]

theorem write_lookups (env : Env) (w : World) (what payload : String) :
    lookups (write env w what payload).2.trace = lookups w.trace := by
  unfold write
  cases hs : env.selectThrows <;> cases he : env.execCommandCopy <;>
    simp [World.emit, lookups]

/-! ## Lemmas on the loop of `copy` -/

theorem onlyLookups_nil : onlyLookups [] := by
  intro e he
  cases he

theorem onlyLookups_append {s t : List Event} (hs : onlyLookups s) (ht : onlyLookups t) :
    onlyLookups (s ++ t) := by
  intro e he
  rcases List.mem_append.1 he with h | h
  · exact hs e h
  · exact ht e h

theorem writes_onlyLookups {es : List Event} (h : onlyLookups es) : writes es = [] := by
  induction es with
  | nil => rfl
  | cons e rest ih =>
    obtain ⟨n, a, he⟩ := h e (List.mem_cons_self _ _)
    have hr : onlyLookups rest := fun x hx => h x (List.mem_cons_of_mem _ hx)
    have := ih hr
    subst he
    simpa [writes] using this

theorem placed_onlyLookups {es : List Event} (h : onlyLookups es) : placed es = [] := by
  induction es with
  | nil => rfl
  | cons e rest ih =>
    obtain ⟨n, a, he⟩ := h e (List.mem_cons_self _ _)
    have hr : onlyLookups rest := fun x hx => h x (List.mem_cons_of_mem _ hx)
    have := ih hr
    subst he
    simpa [placed] using this

/-- One pass of the loop adds nothing but `getAttribute` calls, and none
when no attribute name is sought. -/
theorem copyStep_events (soughtAttribute : JSVal) (trim : Bool)
    (acc : List Val × List Event) (node : Node) :
    ∃ ev, (copyStep soughtAttribute trim acc node).2 = acc.2 ++ ev
      ∧ onlyLookups ev ∧ (soughtName soughtAttribute = none → ev = []) := by
  have hl : ∃ ev, (match soughtName soughtAttribute, node.attrs with
        | some a, some _ => [Event.getAttribute node a]
        | _, _ => []) = ev
      ∧ onlyLookups ev ∧ (soughtName soughtAttribute = none → ev = []) := by
    cases hs : soughtName soughtAttribute with
    | none => exact ⟨[], rfl, onlyLookups_nil, fun _ => rfl⟩
    | some a =>
      cases hn : node.attrs with
      | none => exact ⟨[], rfl, onlyLookups_nil, fun h => by cases h⟩
      | some table =>
        refine ⟨[Event.getAttribute node a], rfl, ?_, fun h => by cases h⟩
        intro e he
        rw [List.mem_singleton] at he
        exact ⟨node, a, he⟩
  obtain ⟨ev, hev, ho, hn⟩ := hl
  refine ⟨ev, ?_, ho, hn⟩
  unfold copyStep
  simp only [hev]
  cases hr : receivedValue soughtAttribute node with
  | none => rfl
  | some r =>
    simp only []
    cases ht : trimValue trim r with
    | none => rfl
    | some r2 =>
      simp only []
      split <;> rfl

theorem copyLoop_events (soughtAttribute : JSVal) (trim : Bool) (ns : List Node) :
    ∀ acc : List Val × List Event,
      ∃ ev, (copyLoop soughtAttribute trim ns acc).2 = acc.2 ++ ev
        ∧ onlyLookups ev ∧ (soughtName soughtAttribute = none → ev = []) := by
  induction ns with
  | nil =>
    intro acc
    exact ⟨[], by simp [copyLoop], onlyLookups_nil, fun _ => rfl⟩
  | cons n rest ih =>
    intro acc
    obtain ⟨ev, hev, ho, hn⟩ := copyStep_events soughtAttribute trim acc n
    unfold copyLoop
    cases hstep : copyStep soughtAttribute trim acc n with
    | mk values events =>
      rw [hstep] at hev
      simp only [] at hev
      cases values with
      | none => exact ⟨ev, hev, ho, hn⟩
      | some vs =>
        obtain ⟨ev2, hev2, ho2, hn2⟩ := ih (vs, events)
        refine ⟨ev ++ ev2, ?_, onlyLookups_append ho ho2, ?_⟩
        · simp only [] at hev2 ⊢
          rw [hev2, hev, List.append_assoc]
        · intro h
          rw [hn h, hn2 h]
          rfl

theorem emit_nil (w : World) : w.emit [] = w := by
  simp [World.emit]

/-- Method `copy` once the probe passed and the selector normalised to a
node sequence: the loop runs from the empty state, a TypeError leaves the
method, an empty `receivedValues` returns false, anything else reaches the
write step. -/
theorem copy_nodes (env : Env) (w : World) (selector soughtAttribute trim : JSVal)
    (ns : List Node) (hp : probe env = true) (hn : normalize env selector = .nodes ns) :
    copy env w selector soughtAttribute trim
      = match copyLoop soughtAttribute (effectiveTrim soughtAttribute trim) ns ([], []) with
        | (none, looked) => (.threw .typeError, w.emit looked)
        | (some values, looked) =>
          if values = [] then (.returned false, w.emit looked)
          else write env (w.emit looked) "copy" (joinLines values) := by
  unfold copy
  rw [isSupported_true w hp]
  simp only [hn]
  cases ns with
  | nil => simp [copyLoop, emit_nil]
  | cons n rest =>
    simp only [List.length_cons, Bool.not_true]
    cases hl : copyLoop soughtAttribute (effectiveTrim soughtAttribute trim) (n :: rest) ([], []) with
    | mk values looked =>
      cases values with
      | none => simp
      | some vs =>
        cases vs <;> simp

/-! ## The loop on HTML elements -/

theorem receivedValue_elem (soughtAttribute : JSVal) (e : Elem) :
    receivedValue soughtAttribute e.toNode = some (.str (elemValue soughtAttribute e)) := by
  unfold receivedValue attributeValue elemValue fallbackValue Elem.toNode
  cases hs : soughtName soughtAttribute with
  | none =>
    by_cases ht : e.tagName = "INPUT" ∨ e.tagName = "TEXTAREA" <;> simp [ht]
  | some a =>
    cases hl : e.attrs.lookup a with
    | none =>
      by_cases ht : e.tagName = "INPUT" ∨ e.tagName = "TEXTAREA" <;> simp [ht, hl]
    | some v =>
      by_cases hv : v = "" <;>
        by_cases ht : e.tagName = "INPUT" ∨ e.tagName = "TEXTAREA" <;> simp [ht, hl, hv]

theorem copyStep_elem (soughtAttribute : JSVal) (trim : Bool)
    (acc : List Val × List Event) (e : Elem) :
    copyStep soughtAttribute trim acc e.toNode
      = (some (acc.1 ++ (resolvedValues soughtAttribute trim [e]).map Val.str),
          acc.2 ++ lookedUp soughtAttribute [e]) := by
  have hlook : (match soughtName soughtAttribute, e.toNode.attrs with
        | some a, some _ => [Event.getAttribute e.toNode a]
        | _, _ => []) = lookedUp soughtAttribute [e] := by
    unfold lookedUp
    cases soughtName soughtAttribute <;> simp [Elem.toNode]
  unfold copyStep
  simp only [hlook, receivedValue_elem]
  cases trim with
  | false =>
    by_cases hv : elemValue soughtAttribute e = "" <;>
      simp [trimValue, resolvedValues, extracted, hv]
  | true =>
    by_cases hv : trimReplace (elemValue soughtAttribute e) = "" <;>
      simp [trimValue, resolvedValues, extracted, hv]

theorem resolvedValues_cons (soughtAttribute : JSVal) (trim : Bool) (e : Elem)
    (rest : List Elem) :
    resolvedValues soughtAttribute trim (e :: rest)
      = resolvedValues soughtAttribute trim [e] ++ resolvedValues soughtAttribute trim rest := by
  simp [resolvedValues, List.filter_cons]
  split <;> simp

theorem lookedUp_cons (soughtAttribute : JSVal) (e : Elem) (rest : List Elem) :
    lookedUp soughtAttribute (e :: rest)
      = lookedUp soughtAttribute [e] ++ lookedUp soughtAttribute rest := by
  unfold lookedUp
  cases soughtName soughtAttribute <;> simp

/-- On a sequence of HTML elements the loop never throws, and what it
gathers is the resolved value sequence of the specification. -/
theorem copyLoop_elems (soughtAttribute : JSVal) (trim : Bool) (es : List Elem) :
    ∀ acc : List Val × List Event,
      copyLoop soughtAttribute trim (es.map Elem.toNode) acc
        = (some (acc.1 ++ (resolvedValues soughtAttribute trim es).map Val.str),
            acc.2 ++ lookedUp soughtAttribute es) := by
  induction es with
  | nil =>
    intro acc
    cases h : soughtName soughtAttribute <;> simp [copyLoop, resolvedValues, lookedUp, h]
  | cons e rest ih =>
    intro acc
    rw [List.map_cons]
    unfold copyLoop
    rw [copyStep_elem]
    simp only []
    rw [ih, resolvedValues_cons soughtAttribute trim e rest, lookedUp_cons soughtAttribute e rest]
    simp [List.append_assoc]

theorem joinLines_str (vs : List String) :
    joinLines (vs.map Val.str) = "\n".intercalate vs := by
  unfold joinLines
  rw [List.map_map]
  have : (Val.joinStr ∘ Val.str) = id := by
    funext x
    rfl
  rw [this, List.map_id]

theorem writes_lookedUp (soughtAttribute : JSVal) (es : List Elem) :
    writes (lookedUp soughtAttribute es) = [] := by
  unfold lookedUp writes
  cases soughtName soughtAttribute <;> simp

theorem placed_lookedUp (soughtAttribute : JSVal) (es : List Elem) :
    placed (lookedUp soughtAttribute es) = [] := by
  unfold lookedUp placed
  cases soughtName soughtAttribute <;> simp

/-- Method `copy` once the probe passed and the selector normalised to a
sequence of HTML elements. -/
theorem copy_elems (env : Env) (w : World) (selector soughtAttribute trim : JSVal)
    (es : List Elem) (hp : probe env = true)
    (hn : normalize env selector = .nodes (es.map Elem.toNode)) :
    copy env w selector soughtAttribute trim
      = if resolvedValues soughtAttribute (effectiveTrim soughtAttribute trim) es = [] then
          (.returned false, w.emit (lookedUp soughtAttribute es))
        else
          write env (w.emit (lookedUp soughtAttribute es)) "copy"
            ("\n".intercalate
              (resolvedValues soughtAttribute (effectiveTrim soughtAttribute trim) es)) := by
  rw [copy_nodes env w selector _ _ _ hp hn, copyLoop_elems]
  simp only [List.nil_append, List.map_eq_nil_iff, joinLines_str]

/-! ## Claims -/

theorem effectiveTrim_attrArg (attributeName : Option String) (trim : Bool) :
    effectiveTrim (attrArg attributeName) (.bool trim) = trim := by
  cases attributeName <;> simp [effectiveTrim, attrArg, JSVal.typeof, JSVal.truthy]

theorem tryCompletes_iff (env : Env) :
    tryCompletes env = true
      ↔ env.selectThrows = false ∧ ∃ ok, env.execCommandCopy = .returns ok := by
  unfold tryCompletes
  cases env.selectThrows <;> cases env.execCommandCopy <;> simp

/-- C1, the code at the failing inputs. The argument `document` is a `Node`
(line 46) and normalises to a one-node sequence. Its `textContent` is null:
line 81 lets null through, `receivedValues` is not empty, line 97 joins it
to the empty string, and `copy( document )` returns true having handed the
empty string to the copy command, where no node gave a non-empty value. With
the trim flag set, `copy( document, undefined, true )` calls `replace` on
null and leaves with a TypeError instead of a boolean. A plain array of
nodes, which the docstring lists as `Node[]`, is rejected by line 50. -/
theorem copy_document_writes_empty :
    normalize browser documentArg = .nodes [documentNode]
    ∧ copyLoop .undefined false [documentNode] ([], []) = (some [.null], [])
    ∧ (copy browser page documentArg .undefined .undefined).1 = .returned true
    ∧ placed (copy browser page documentArg .undefined .undefined).2.trace = [""]
    ∧ writes (copy browser page documentArg .undefined .undefined).2.trace = [""]
    ∧ (copy browser page documentArg .undefined (.bool true)).1 = .threw .typeError
    ∧ (copy browser page nodeArrayArg .undefined .undefined).1 = .returned false := by
  decide

/-- On sequences of HTML elements the pipeline of `copy` is the one the
specification gives: in a supported environment where the statements of the
`try` block do not throw, for a selector that normalises to the elements
`es`, an optional attribute name and a trim flag, let V be the resolved
value sequence. If V is non-empty, `copy` returns true and the payload it
places in the textarea and hands to the copy command is V joined by a
newline; if `es` is empty or V is empty, `copy` returns false and hands
nothing to the copy command. -/
theorem copy_elements_resolved (env : Env) (w : World) (selector : JSVal)
    (attributeName : Option String) (trim : Bool) (es : List Elem)
    (hp : probe env = true) (hc : tryCompletes env = true)
    (hn : normalize env selector = .nodes (es.map Elem.toNode)) :
    (resolvedValues (attrArg attributeName) trim es ≠ [] →
      (copy env w selector (attrArg attributeName) (.bool trim)).1 = .returned true
      ∧ writes (copy env w selector (attrArg attributeName) (.bool trim)).2.trace
          = writes w.trace
            ++ ["\n".intercalate (resolvedValues (attrArg attributeName) trim es)]
      ∧ placed (copy env w selector (attrArg attributeName) (.bool trim)).2.trace
          = placed w.trace
            ++ ["\n".intercalate (resolvedValues (attrArg attributeName) trim es)])
    ∧ ((es = [] ∨ resolvedValues (attrArg attributeName) trim es = []) →
      (copy env w selector (attrArg attributeName) (.bool trim)).1 = .returned false
      ∧ writes (copy env w selector (attrArg attributeName) (.bool trim)).2.trace
          = writes w.trace
      ∧ placed (copy env w selector (attrArg attributeName) (.bool trim)).2.trace
          = placed w.trace) := by
  have hsel : env.selectThrows = false := ((tryCompletes_iff env).1 hc).1
  rw [copy_elems env w selector _ _ es hp hn, effectiveTrim_attrArg]
  constructor
  · intro hV
    rw [if_neg hV]
    refine ⟨?_, ?_, ?_⟩
    · rw [write_fst, hc]
    · rw [write_writes, hsel]
      simp [World.emit, writes_lookedUp]
    · rw [write_placed]
      simp [World.emit, placed_lookedUp]
  · intro hV
    have hV2 : resolvedValues (attrArg attributeName) trim es = [] := by
      rcases hV with h | h
      · rw [h]; rfl
      · exact h
    rw [if_pos hV2]
    simp [World.emit, writes_lookedUp, placed_lookedUp]

/-- The example of the specification: the selector `p` matches three
elements with the text contents `a`, ` b ` and the empty string; with trim
set the resolved values are `a`, `b` and the payload is `a\nb`; a selector
matching nothing gives false and no write. -/
theorem copy_three_elements :
    resolvedValues .undefined true
        [textElem "P" "a", textElem "P" " b ", textElem "P" ""] = ["a", "b"]
    ∧ (copy browser page (.str "p") .undefined (.bool true)).1 = .returned true
    ∧ writes (copy browser page (.str "p") .undefined (.bool true)).2.trace = ["a\nb"]
    ∧ (copy browser page (.str "nothing") .undefined (.bool true)).1 = .returned false
    ∧ writes (copy browser page (.str "nothing") .undefined (.bool true)).2.trace = [] := by
  decide

/-- C2, as the claim states it, fails: with a copy command that the
environment rejects (`execCommand` returns false without throwing), `clear`,
`insert` and `copy` reach the write step and return true. -/
theorem rejected_command_still_true :
    probe rejecting = true
    ∧ rejecting.selectThrows = false
    ∧ rejecting.execCommandCopy = .returns false
    ∧ (clear rejecting page).1 = .returned true
    ∧ (insert rejecting page (.str "x")).1 = .returned true
    ∧ (copy rejecting page (.str "p") .undefined .undefined).1 = .returned true := by
  decide

/-- C2, amended: in a supported environment, once a payload reaches the
write step, `clear`, `insert` and `copy` return true exactly when `select()`
and the copy command ran without throwing, whatever the copy command
returned, and return false when one of them throws. For `copy` the write
step is reached when the loop ends with a non-empty `receivedValues`; on
HTML elements, when the resolved value sequence is non-empty. -/
theorem write_step_result (env : Env) (w : World) (hp : probe env = true) :
    (tryCompletes env = true
      ↔ env.selectThrows = false ∧ ∃ ok, env.execCommandCopy = .returns ok)
    ∧ (clear env w).1 = .returned (tryCompletes env)
    ∧ (∀ v payload, insertPayload v = some payload →
        (insert env w v).1 = .returned (tryCompletes env))
    ∧ (∀ selector soughtAttribute trim es,
        normalize env selector = .nodes (es.map Elem.toNode) →
        resolvedValues soughtAttribute (effectiveTrim soughtAttribute trim) es ≠ [] →
        (copy env w selector soughtAttribute trim).1 = .returned (tryCompletes env))
    ∧ (∀ selector soughtAttribute trim ns values looked,
        normalize env selector = .nodes ns →
        copyLoop soughtAttribute (effectiveTrim soughtAttribute trim) ns ([], [])
          = (some values, looked) →
        values ≠ [] →
        (copy env w selector soughtAttribute trim).1 = .returned (tryCompletes env)) := by
  refine ⟨tryCompletes_iff env, ?_, ?_, ?_, ?_⟩
  · unfold clear
    rw [isSupported_true w hp]
    simp [write_fst]
  · intro v payload hv
    unfold insert
    rw [isSupported_true w hp]
    simp [hv, JSVal.typeof, write_fst]
  · intro selector soughtAttribute trim es hn hV
    rw [copy_elems env w selector _ _ es hp hn, if_neg hV, write_fst]
  · intro selector soughtAttribute trim ns values looked hn hl hV
    rw [copy_nodes env w selector _ _ ns hp hn, hl]
    simp only []
    rw [if_neg hV, write_fst]

/-- Witness of C2 amended: a rejected command gives true, a throwing one
false. -/
theorem write_step_result_witness :
    (clear rejecting page).1 = .returned true
    ∧ (clear throwing page).1 = .returned false
    ∧ (insert throwing page (.num ⟨"42", false⟩)).1 = .returned false :=
  ⟨(write_step_result rejecting page (by decide)).2.1.trans (by decide),
    (write_step_result throwing page (by decide)).2.1.trans (by decide),
    ((write_step_result throwing page (by decide)).2.2.1 (.num ⟨"42", false⟩) "42"
      (by decide)).trans (by decide)⟩

/-! ### Frame: the children of the root -/

theorem emit_WF {w : World} (es : List Event) (hw : w.WF) : (w.emit es).WF := hw

theorem copy_frame (env : Env) (w : World) (selector soughtAttribute trim : JSVal)
    (hw : w.WF) :
    (copy env w selector soughtAttribute trim).2.children = w.children
    ∧ w.nextId ≤ (copy env w selector soughtAttribute trim).2.nextId := by
  cases hp : probe env with
  | false =>
    unfold copy
    rw [isSupported_false w hp]
    simp [World.emit]
  | true =>
    cases hn : normalize env selector with
    | threw =>
      unfold copy
      rw [isSupported_true w hp]
      simp [hn]
    | rejected =>
      unfold copy
      rw [isSupported_true w hp]
      simp [hn]
    | nodes ns =>
      rw [copy_nodes env w selector _ _ ns hp hn]
      cases hl : copyLoop soughtAttribute (effectiveTrim soughtAttribute trim) ns ([], []) with
      | mk values looked =>
        cases values with
        | none => simp [World.emit]
        | some vs =>
          simp only []
          split
          · simp [World.emit]
          · rw [write_children _ _ _ _ (emit_WF _ hw), write_nextId]
            simp [World.emit]

theorem insert_frame (env : Env) (w : World) (string : JSVal) (hw : w.WF) :
    (insert env w string).2.children = w.children
    ∧ w.nextId ≤ (insert env w string).2.nextId := by
  cases hp : probe env with
  | false =>
    unfold insert
    rw [isSupported_false w hp]
    simp [World.emit]
  | true =>
    unfold insert
    rw [isSupported_true w hp]
    cases insertPayload string with
    | none => simp
    | some payload => simp [JSVal.typeof, write_children _ _ _ _ hw, write_nextId]

theorem clear_frame (env : Env) (w : World) (hw : w.WF) :
    (clear env w).2.children = w.children ∧ w.nextId ≤ (clear env w).2.nextId := by
  cases hp : probe env with
  | false =>
    unfold clear
    rw [isSupported_false w hp]
    simp [World.emit]
  | true =>
    unfold clear
    rw [isSupported_true w hp]
    simp [write_children _ _ _ _ hw, write_nextId]

theorem WF_of_frame {w r : World} (hw : w.WF) (hc : r.children = w.children)
    (hn : w.nextId ≤ r.nextId) : r.WF := by
  intro c hm
  rw [hc] at hm
  exact Nat.lt_of_lt_of_le (hw c hm) hn

/-- C3: for every call to `copy`, `insert` or `clear`, with any arguments
and in every environment (whether `select()` and the copy command complete
or throw), the children of the document root after the call are the
children before the call, and the world stays well formed; the textarea the
call attached is detached again. -/
theorem root_children_restored (env : Env) (w : World) (hw : w.WF)
    (selector soughtAttribute trim string : JSVal) :
    ((copy env w selector soughtAttribute trim).2.children = w.children
      ∧ (copy env w selector soughtAttribute trim).2.WF)
    ∧ ((insert env w string).2.children = w.children ∧ (insert env w string).2.WF)
    ∧ ((clear env w).2.children = w.children ∧ (clear env w).2.WF) := by
  have hc := copy_frame env w selector soughtAttribute trim hw
  have hi := insert_frame env w string hw
  have hl := clear_frame env w hw
  exact ⟨⟨hc.1, WF_of_frame hw hc.1 hc.2⟩, ⟨hi.1, WF_of_frame hw hi.1 hi.2⟩,
    ⟨hl.1, WF_of_frame hw hl.1 hl.2⟩⟩

/-- Witness of C3 on the page with the two children `head` and `body`, with
a throwing and with a completing copy command. -/
theorem root_children_restored_witness :
    page.WF
    ∧ (copy throwing page (.str "p") .undefined .undefined).2.children = [0, 1]
    ∧ (insert browser page (.str "x")).2.children = [0, 1]
    ∧ (clear throwing page).2.children = [0, 1] :=
  ⟨by decide,
    (root_children_restored throwing page (by decide) (.str "p") .undefined .undefined
      .undefined).1.1,
    (root_children_restored browser page (by decide) .undefined .undefined .undefined
      (.str "x")).2.1.1,
    (root_children_restored throwing page (by decide) .undefined .undefined .undefined
      .undefined).2.2.1⟩

/-- C5: when the capability probe is false, `copy`, `insert` and `clear`
return false for all arguments, leave the children of the root as they were,
create no element, place no payload and never invoke the copy command. -/
theorem unsupported_short_circuits (env : Env) (w : World) (hp : probe env = false)
    (selector soughtAttribute trim string : JSVal) :
    ∀ r ∈ [copy env w selector soughtAttribute trim, insert env w string, clear env w],
      r.1 = .returned false
      ∧ r.2.children = w.children
      ∧ r.2.nextId = w.nextId
      ∧ created r.2.trace = created w.trace
      ∧ placed r.2.trace = placed w.trace
      ∧ writes r.2.trace = writes w.trace := by
  intro r hr
  have h : r = (.returned false, w.emit [.warn unsupportedWarning]) := by
    simp only [List.mem_cons, List.mem_singleton, List.not_mem_nil, or_false] at hr
    rcases hr with h | h | h <;> rw [h]
    · unfold copy; rw [isSupported_false w hp]; simp
    · unfold insert; rw [isSupported_false w hp]; simp
    · unfold clear; rw [isSupported_false w hp]; simp
  subst h
  simp [World.emit, created, placed, writes]

/-- Witness of C5 in a browser without `queryCommandSupported`. -/
theorem unsupported_short_circuits_witness :
    probe legacy = false
    ∧ (copy legacy page (.str "p") .undefined .undefined).1 = .returned false
    ∧ (copy legacy page (.str "p") .undefined .undefined).2.children = [0, 1]
    ∧ writes (copy legacy page (.str "p") .undefined .undefined).2.trace = [] :=
  ⟨by decide,
    (unsupported_short_circuits legacy page (by decide) (.str "p") .undefined .undefined
      .undefined _ (List.mem_cons_self _ _)).1,
    (unsupported_short_circuits legacy page (by decide) (.str "p") .undefined .undefined
      .undefined _ (List.mem_cons_self _ _)).2.1,
    (unsupported_short_circuits legacy page (by decide) (.str "p") .undefined .undefined
      .undefined _ (List.mem_cons_self _ _)).2.2.2.2.2⟩

/-! ### The dispatcher -/

theorem copy_fst_cases (env : Env) (w : World) (selector soughtAttribute trim : JSVal) :
    (∃ b, (copy env w selector soughtAttribute trim).1 = .returned b)
    ∨ (copy env w selector soughtAttribute trim).1 = .threw .syntaxError
    ∨ (copy env w selector soughtAttribute trim).1 = .threw .typeError := by
  cases hp : probe env with
  | false =>
    unfold copy
    rw [isSupported_false w hp]
    simp
  | true =>
    cases hn : normalize env selector with
    | threw =>
      unfold copy
      rw [isSupported_true w hp]
      simp [hn]
    | rejected =>
      unfold copy
      rw [isSupported_true w hp]
      simp [hn]
    | nodes ns =>
      rw [copy_nodes env w selector _ _ ns hp hn]
      cases hl : copyLoop soughtAttribute (effectiveTrim soughtAttribute trim) ns ([], []) with
      | mk values looked =>
        cases values with
        | none => simp
        | some vs =>
          simp only []
          split
          · simp
          · rw [write_fst]
            simp

/-- The probe `clipboard( 'isSupported' )` of lines 36, 119 and 157 is the
method `isSupported`: the dispatcher finds the own property and applies
it. -/
theorem probe_through_dispatcher (env : Env) (w : World) :
    clipboard env w [.str "isSupported"]
      = (.returned (isSupported env w).1, (isSupported env w).2) := by
  simp [clipboard, arg, JSVal.toStr, lookupMethod, Slot.truthy, applyMethod]

theorem lookupMethod_unknown (env : Env) (name : String)
    (hk : name ∉ ["copy", "insert", "clear", "isSupported"]) :
    lookupMethod env name
      = match env.inherited name with
        | some i => .inherited i
        | none => .undefined := by
  simp only [List.mem_cons, List.mem_singleton, List.not_mem_nil, or_false, not_or] at hk
  obtain ⟨h1, h2, h3, h4⟩ := hk
  simp [lookupMethod, h1, h2, h3, h4]

/-- C4, as the claim states it, fails: the string `p` is not empty and names
none of the four operations, and `clipboard( 'p' )` raises nothing: it runs
`copy( 'p' )`, which returns true and hands the text of the matched elements
to the copy command. -/
theorem unknown_string_defaults_to_copy :
    "p" ≠ ""
    ∧ "p" ∉ ["copy", "insert", "clear", "isSupported"]
    ∧ clipboard browser page [.str "p"] = copy browser page (.str "p") .undefined .undefined
    ∧ (clipboard browser page [.str "p"]).1 = .returned true
    ∧ writes (clipboard browser page [.str "p"]).2.trace = ["a\n b "] := by
  decide

/-- C4, amended: for every first argument that is a non-empty string other
than the four operation names, when the dispatch table has no property of
that name the call is `copy` applied to all the arguments, the string being
the selector: same result and same effects, so it returns a boolean or
raises the error `copy` raises (the SyntaxError of an invalid selector, the
TypeError of the loop); and the call raises the `Method … doesn't exists`
error exactly when the table lookup gives a falsy value other than
`undefined`. -/
theorem unknown_string_dispatch (env : Env) (w : World) (name : String) (rest : List JSVal)
    (hne : name ≠ "") (hk : name ∉ ["copy", "insert", "clear", "isSupported"]) :
    (env.inherited name = none →
      clipboard env w (.str name :: rest)
          = copy env w (.str name) (arg rest 0) (arg rest 1)
      ∧ ((∃ b, (clipboard env w (.str name :: rest)).1 = .returned b)
        ∨ (clipboard env w (.str name :: rest)).1 = .threw .syntaxError
        ∨ (clipboard env w (.str name :: rest)).1 = .threw .typeError))
    ∧ ((clipboard env w (.str name :: rest)).1 = .threw (unknownMethod name)
        ↔ env.inherited name = some .falsy) := by
  have hl := lookupMethod_unknown env name hk
  have hcopy : applyCopy env w (.str name :: rest)
      = copy env w (.str name) (arg rest 0) (arg rest 1) := by
    simp [applyCopy, arg]
  have hnone : env.inherited name = none →
      clipboard env w (.str name :: rest)
        = copy env w (.str name) (arg rest 0) (arg rest 1) := by
    intro hi
    rw [hi] at hl
    simp [clipboard, arg, JSVal.toStr, hl, Slot.truthy, hcopy]
  constructor
  · intro hi
    refine ⟨hnone hi, ?_⟩
    rw [hnone hi]
    exact copy_fst_cases env w (.str name) (arg rest 0) (arg rest 1)
  · cases hi : env.inherited name with
    | none =>
      rw [hnone hi]
      rcases copy_fst_cases env w (.str name) (arg rest 0) (arg rest 1)
        with ⟨b, h⟩ | h | h <;> simp [h, unknownMethod]
    | some i =>
      rw [hi] at hl
      cases i <;>
        simp [clipboard, arg, JSVal.toStr, hl, Slot.truthy, JSVal.typeof, JSVal.truthy, hne,
          unknownMethod]

/-- Witness of C4 amended: `clipboard( 'p', undefined, true )` is
`copy( 'p', undefined, true )` and raises no unknown-method error;
`clipboard( 'p[' )` is `copy( 'p[' )` and raises its SyntaxError. -/
theorem unknown_string_dispatch_witness :
    clipboard browser page [.str "p", .undefined, .bool true]
        = copy browser page (.str "p") .undefined (.bool true)
    ∧ ¬ (clipboard browser page [.str "p", .undefined, .bool true]).1
        = .threw (unknownMethod "p")
    ∧ (clipboard browser page [.str "p["]).1 = .threw .syntaxError :=
  ⟨((unknown_string_dispatch browser page "p" [.undefined, .bool true] (by decide)
      (by decide)).1 (by decide)).1,
    fun h => absurd ((unknown_string_dispatch browser page "p" [.undefined, .bool true]
      (by decide) (by decide)).2.1 h) (by decide),
    (congrArg Prod.fst ((unknown_string_dispatch browser page "p[" [] (by decide)
      (by decide)).1 (by decide)).1).trans (by decide)⟩

/-! ### Extraction -/

/-- C6, the code at the failing input. A NodeList such as `childNodes` is
an accepted selector (line 49) and its first item here is a Text node. With
the attribute name `data-copy` configured, line 62 calls `getAttribute` on
the Text node, which has no such method: no value is extracted and `copy`
leaves with a TypeError instead of using the text content `hi`. Without an
attribute name the Text node gives its text content. -/
theorem text_node_attribute_throws :
    normalize browser childNodesArg
        = .nodes [textNode "hi", (textElem "P" "a").toNode]
    ∧ receivedValue (.str "data-copy") (textNode "hi") = none
    ∧ (copy browser page childNodesArg (.str "data-copy") .undefined).1 = .threw .typeError
    ∧ writes (copy browser page childNodesArg (.str "data-copy") .undefined).2.trace = []
    ∧ receivedValue .undefined (textNode "hi") = some (.str "hi")
    ∧ writes (copy browser page childNodesArg .undefined .undefined).2.trace = ["hi\na"] := by
  decide

/-- Extraction on every node: line 62 throws exactly when an attribute name
is sought on a node without `getAttribute`; otherwise the value is (a) the
value of the sought attribute when the node has it set to a non-empty
string, (b) else the `value` property under the tag names INPUT and
TEXTAREA, (c) else the `textContent` property. -/
theorem receivedValue_precedence (soughtAttribute : JSVal) (node : Node) :
    (receivedValue soughtAttribute node = none
      ↔ soughtName soughtAttribute ≠ none ∧ node.attrs = none)
    ∧ (∀ a table v, soughtAttribute = .str a → a ≠ "" → node.attrs = some table →
        table.lookup a = some v → v ≠ "" →
        receivedValue soughtAttribute node = some (.str v))
    ∧ (receivedValue soughtAttribute node ≠ none →
        (¬ ∃ a table v, soughtAttribute = .str a ∧ a ≠ "" ∧ node.attrs = some table
          ∧ table.lookup a = some v ∧ v ≠ "") →
        ((node.tagName = some "INPUT" ∨ node.tagName = some "TEXTAREA") →
          receivedValue soughtAttribute node = some node.value)
        ∧ (¬ (node.tagName = some "INPUT" ∨ node.tagName = some "TEXTAREA") →
          receivedValue soughtAttribute node = some node.textContent)) := by
  refine ⟨?_, ?_, ?_⟩
  · unfold receivedValue attributeValue
    cases hs : soughtName soughtAttribute with
    | none => simp
    | some a =>
      cases hn : node.attrs with
      | none => simp
      | some table =>
        cases hl : table.lookup a with
        | none => simp [hl]
        | some v => by_cases hv : v = "" <;> simp [hl, hv]
  · intro a table v hs ha hn hl hv
    subst hs
    simp [receivedValue, attributeValue, soughtName, ha, hn, hl, hv]
  · intro hsome hno
    have hfall : receivedValue soughtAttribute node = some (fallbackValue node) := by
      unfold receivedValue attributeValue at hsome ⊢
      cases soughtAttribute with
      | str a =>
        by_cases ha : a = ""
        · simp [soughtName, ha]
        · cases hn : node.attrs with
          | none => simp [soughtName, ha, hn] at hsome
          | some table =>
            cases hl : table.lookup a with
            | none => simp [soughtName, ha, hl]
            | some v =>
              by_cases hv : v = ""
              · simp [soughtName, ha, hl, hv]
              · exact absurd ⟨a, table, v, rfl, ha, hn, hl, hv⟩ hno
      | _ => simp [soughtName]
    constructor
    · intro ht
      rw [hfall]
      unfold fallbackValue
      rcases ht with h | h <;> simp [h]
    · intro ht
      rw [hfall]
      unfold fallbackValue
      have h1 : node.tagName ≠ some "INPUT" := fun h => ht (Or.inl h)
      have h2 : node.tagName ≠ some "TEXTAREA" := fun h => ht (Or.inr h)
      simp [h1, h2]

/-- The example of the specification: an `INPUT` element with
`data-copy="42"` resolves to `42` under the attribute name `data-copy`. -/
theorem receivedValue_input_sample :
    receivedValue (.str "data-copy") inputElem.toNode = some (.str "42")
    ∧ receivedValue .undefined inputElem.toNode = some (.str "typed")
    ∧ receivedValue (.str "data-copy") (textElem "P" "a").toNode = some (.str "a") := by
  decide

/-! ### Method `insert` -/

theorem insert_payload (env : Env) (w : World) (v : JSVal) (payload : String)
    (hp : probe env = true) (hc : tryCompletes env = true)
    (hv : insertPayload v = some payload) :
    (insert env w v).1 = .returned true
    ∧ writes (insert env w v).2.trace = writes w.trace ++ [payload]
    ∧ placed (insert env w v).2.trace = placed w.trace ++ [payload] := by
  have hsel : env.selectThrows = false := ((tryCompletes_iff env).1 hc).1
  unfold insert
  rw [isSupported_true w hp]
  simp [hv, JSVal.typeof, write_fst, write_writes, write_placed, hc, hsel]

/-- C7: in a supported environment where the statements of the `try` block
do not throw, `insert( v )` returns true for every `v` that is absent, a
string, a number or a boolean, and the payload it places in the textarea and
hands to the copy command is the sentinel `\0` when `v` is absent or the
empty string, and the string representation of `v` otherwise. -/
theorem insert_primitive (env : Env) (w : World) (hp : probe env = true)
    (hc : tryCompletes env = true) :
    (∀ v, v = .undefined ∨ v = .str "" →
      (insert env w v).1 = .returned true
      ∧ writes (insert env w v).2.trace = writes w.trace ++ [sentinel]
      ∧ placed (insert env w v).2.trace = placed w.trace ++ [sentinel])
    ∧ (∀ s, s ≠ "" →
      (insert env w (.str s)).1 = .returned true
      ∧ writes (insert env w (.str s)).2.trace = writes w.trace ++ [s]
      ∧ placed (insert env w (.str s)).2.trace = placed w.trace ++ [s])
    ∧ (∀ n,
      (insert env w (.num n)).1 = .returned true
      ∧ writes (insert env w (.num n)).2.trace = writes w.trace ++ [n.repr]
      ∧ placed (insert env w (.num n)).2.trace = placed w.trace ++ [n.repr])
    ∧ (∀ b,
      (insert env w (.bool b)).1 = .returned true
      ∧ writes (insert env w (.bool b)).2.trace
          = writes w.trace ++ [if b then "true" else "false"]
      ∧ placed (insert env w (.bool b)).2.trace
          = placed w.trace ++ [if b then "true" else "false"]) := by
  refine ⟨?_, ?_, ?_, ?_⟩
  · intro v hv
    apply insert_payload env w v sentinel hp hc
    rcases hv with h | h <;> subst h <;> simp [insertPayload, JSVal.isUndefined, JSVal.isEmptyStr]
  · intro s hs
    apply insert_payload env w _ s hp hc
    simp [insertPayload, JSVal.isUndefined, JSVal.isEmptyStr, JSVal.toStr, hs]
  · intro n
    apply insert_payload env w _ n.repr hp hc
    simp [insertPayload, JSVal.isUndefined, JSVal.isEmptyStr, JSVal.toStr]
  · intro b
    apply insert_payload env w _ _ hp hc
    simp [insertPayload, JSVal.isUndefined, JSVal.isEmptyStr, JSVal.toStr]

/-- Witness of C7: `insert()` writes the sentinel, not the empty string;
`insert( 42 )` writes `42`. -/
theorem insert_primitive_witness :
    writes (insert browser page .undefined).2.trace = ["\x00"]
    ∧ ¬ writes (insert browser page .undefined).2.trace = [""]
    ∧ (insert browser page (.num ⟨"42", false⟩)).1 = .returned true
    ∧ writes (insert browser page (.num ⟨"42", false⟩)).2.trace = ["42"] :=
  ⟨((insert_primitive browser page (by decide) (by decide)).1 .undefined
      (Or.inl rfl)).2.1.trans (by decide),
    by decide,
    ((insert_primitive browser page (by decide) (by decide)).2.2.1 ⟨"42", false⟩).1,
    ((insert_primitive browser page (by decide) (by decide)).2.2.1
      ⟨"42", false⟩).2.1.trans (by decide)⟩

/-- C8, as the claim states it, fails: in a supporting browser
`insert( {} )` does not return false; it returns true and hands the string
`[object Object]` to the copy command. -/
theorem insert_object_writes :
    emptyObject.typeof = .object
    ∧ (insert browser page emptyObject).1 = .returned true
    ∧ placed (insert browser page emptyObject).2.trace = ["[object Object]"]
    ∧ writes (insert browser page emptyObject).2.trace = ["[object Object]"] := by
  decide

/-- C8, amended: for every input value that is an object whose string
conversion gives a non-empty string, `insert` in a supported environment
where the statements of the `try` block do not throw returns true, and the
payload it places in the textarea and hands to the copy command is that
string representation (`[object Object]` for `{}`); the test of line 125
does not return false. -/
theorem insert_object_coerced (env : Env) (w : World) (v : JSVal) (repr : String)
    (hp : probe env = true) (hc : tryCompletes env = true)
    (ho : v.typeof = .object) (hs : v.toStr = some repr) (_hr : repr ≠ "") :
    (insert env w v).1 = .returned true
    ∧ writes (insert env w v).2.trace = writes w.trace ++ [repr]
    ∧ placed (insert env w v).2.trace = placed w.trace ++ [repr] := by
  apply insert_payload env w v repr hp hc
  cases v <;> simp_all [insertPayload, JSVal.isUndefined, JSVal.isEmptyStr, JSVal.typeof]

/-- Witness of C8 amended at `{}`. -/
theorem insert_object_coerced_witness :
    (insert browser page emptyObject).1 = .returned true
    ∧ writes (insert browser page emptyObject).2.trace = ["[object Object]"] :=
  ⟨(insert_object_coerced browser page emptyObject "[object Object]" (by decide) (by decide)
      (by decide) (by decide) (by decide)).1,
    (insert_object_coerced browser page emptyObject "[object Object]" (by decide) (by decide)
      (by decide) (by decide) (by decide)).2.1.trans (by decide)⟩

/-! ### Empty payloads -/

theorem intercalate_go_length (sep : String) (l : List String) :
    ∀ acc : String, acc.length ≤ (String.intercalate.go acc sep l).length := by
  induction l with
  | nil =>
    intro acc
    simp [String.intercalate.go]
  | cons a rest ih =>
    intro acc
    simp only [String.intercalate.go]
    refine Nat.le_trans ?_ (ih _)
    simp only [String.length_append]
    omega

theorem intercalate_ne_empty (v : String) (vs : List String) (hv : v ≠ "") :
    "\n".intercalate (v :: vs) ≠ "" := by
  intro h
  have hl := intercalate_go_length "\n" vs v
  have h0 : (String.intercalate.go v "\n" vs).length = 0 := by
    have : String.intercalate.go v "\n" vs = "" := h
    rw [this]
    rfl
  have hv0 : v.length = 0 := by omega
  apply hv
  cases v with
  | mk data =>
    have hd : data.length = 0 := hv0
    rw [List.length_eq_zero] at hd
    rw [hd]

theorem resolvedValues_ne_empty (soughtAttribute : JSVal) (trim : Bool) (es : List Elem) :
    ∀ v ∈ resolvedValues soughtAttribute trim es, v ≠ "" := by
  intro v hm
  simp [resolvedValues] at hm
  obtain ⟨_, hne⟩ := hm
  exact hne

/-- On HTML elements method `copy` never places the empty string in the
scratch textarea, and method `clear` never does: every string placed during
the call is non-empty. -/
theorem copy_clear_place_nonempty (env : Env) (w : World)
    (selector soughtAttribute trim : JSVal) (es : List Elem)
    (hn : normalize env selector = .nodes (es.map Elem.toNode)) :
    (∃ ps, placed (copy env w selector soughtAttribute trim).2.trace = placed w.trace ++ ps
      ∧ ∀ p ∈ ps, p ≠ "")
    ∧ (∃ ps, placed (clear env w).2.trace = placed w.trace ++ ps ∧ ∀ p ∈ ps, p ≠ "") := by
  constructor
  · cases hp : probe env with
    | false =>
      refine ⟨[], ?_, by simp⟩
      unfold copy
      rw [isSupported_false w hp]
      simp [World.emit, placed]
    | true =>
      rw [copy_elems env w selector _ _ es hp hn]
      split
      · exact ⟨[], by simp [World.emit, placed_lookedUp], by simp⟩
      · rename_i hV
        refine ⟨["\n".intercalate (resolvedValues soughtAttribute
          (effectiveTrim soughtAttribute trim) es)], ?_, ?_⟩
        · rw [write_placed]
          simp [World.emit, placed_lookedUp]
        · intro p hpm
          rw [List.mem_singleton] at hpm
          subst hpm
          have hall := resolvedValues_ne_empty soughtAttribute
            (effectiveTrim soughtAttribute trim) es
          revert hV hall
          cases resolvedValues soughtAttribute (effectiveTrim soughtAttribute trim) es with
          | nil => intro hV; exact absurd rfl hV
          | cons v vs =>
            intro _ hall
            exact intercalate_ne_empty v vs (hall v (List.mem_cons_self _ _))
  · cases hp : probe env with
    | false =>
      refine ⟨[], ?_, by simp⟩
      unfold clear
      rw [isSupported_false w hp]
      simp [World.emit, placed]
    | true =>
      refine ⟨[sentinel], ?_, ?_⟩
      · unfold clear
        rw [isSupported_true w hp]
        simp [write_placed]
      · intro p hpm
        rw [List.mem_singleton] at hpm
        subst hpm
        decide

/-- C10, the code at the failing input: in a supporting browser
`insert( [] )` reaches the write step, places the empty string in the
scratch textarea and invokes the copy command on it; the test `string === ''`
of line 123 looks at the value before the coercion `'' + string`. -/
theorem insert_empty_array_places_empty :
    (JSVal.arr []).toStr = some ""
    ∧ (insert browser page (.arr [])).1 = .returned true
    ∧ placed (insert browser page (.arr [])).2.trace = [""]
    ∧ writes (insert browser page (.arr [])).2.trace = [""] := by
  decide

/-! ### The trim flag of `copy` -/

theorem soughtName_bool (b : Bool) : soughtName (.bool b) = none := rfl

theorem copy_bool_lookups (env : Env) (w : World) (selector trim : JSVal) (b : Bool) :
    lookups (copy env w selector (.bool b) trim).2.trace = lookups w.trace := by
  cases hp : probe env with
  | false =>
    unfold copy
    rw [isSupported_false w hp]
    simp [World.emit, lookups]
  | true =>
    cases hn : normalize env selector with
    | threw =>
      unfold copy
      rw [isSupported_true w hp]
      simp [hn]
    | rejected =>
      unfold copy
      rw [isSupported_true w hp]
      simp [hn]
    | nodes ns =>
      rw [copy_nodes env w selector _ _ ns hp hn]
      obtain ⟨ev, hev, _, hnil⟩ :=
        copyLoop_events (.bool b) (effectiveTrim (.bool b) trim) ns ([], [])
      rw [hnil (soughtName_bool b)] at hev
      cases hl : copyLoop (.bool b) (effectiveTrim (.bool b) trim) ns ([], []) with
      | mk values looked =>
        rw [hl] at hev
        simp only [List.append_nil] at hev
        subst hev
        cases values with
        | none => simp [World.emit]
        | some vs =>
          simp only []
          split
          · simp [World.emit]
          · rw [write_lookups]
            simp [World.emit]

/-- C9, as the claim states it, fails: in `copy( 'p', true, false )` the
second argument is the boolean true and the effective trim flag is false,
the third argument: the value ` b ` is handed over untrimmed. -/
theorem third_argument_overrides_second :
    effectiveTrim (.bool true) (.bool false) = false
    ∧ writes (copy browser page (.str "p") (.bool true) (.bool false)).2.trace = ["a\n b "]
    ∧ writes (copy browser page (.str "p") (.bool true) .undefined).2.trace = ["a\nb"] := by
  decide

/-- C9, amended: for every call `copy( selector, second, third )`, when
`second` is a boolean the effective trim flag equals `second` if `third` is
omitted (`undefined`) and the truthiness of `third` if it is given, and no
attribute lookup is performed on any node; when `second` is not a boolean,
the flag equals `third` when `third` is a boolean and is false when `third`
is omitted. -/
theorem trim_flag_overload (second third : JSVal) :
    (∀ b, second = .bool b →
      (third = .undefined → effectiveTrim second third = b)
      ∧ (third.isUndefined = false → effectiveTrim second third = third.truthy)
      ∧ (∀ env w selector,
          lookups (copy env w selector second third).2.trace = lookups w.trace))
    ∧ (second.typeof ≠ .boolean →
      (∀ t, third = .bool t → effectiveTrim second third = t)
      ∧ (third = .undefined → effectiveTrim second third = false)) := by
  constructor
  · intro b hb
    subst hb
    refine ⟨?_, ?_, ?_⟩
    · intro h
      subst h
      simp [effectiveTrim, JSVal.typeof, JSVal.isUndefined, JSVal.truthy]
    · intro h
      simp [effectiveTrim, h]
    · intro env w selector
      exact copy_bool_lookups env w selector third b
  · intro hs
    constructor
    · intro t ht
      subst ht
      simp [effectiveTrim, JSVal.isUndefined, JSVal.truthy]
    · intro ht
      subst ht
      simp [effectiveTrim, hs, JSVal.truthy]

/-- Witness of C9 amended. -/
theorem trim_flag_overload_witness :
    effectiveTrim (.bool true) .undefined = true
    ∧ effectiveTrim (.bool true) (.bool false) = false
    ∧ lookups (copy browser page (.str "p") (.bool true) (.bool false)).2.trace = []
    ∧ effectiveTrim (.str "data-copy") (.bool true) = true
    ∧ effectiveTrim (.str "data-copy") .undefined = false :=
  ⟨((trim_flag_overload (.bool true) .undefined).1 true rfl).1 rfl,
    (((trim_flag_overload (.bool true) (.bool false)).1 true rfl).2.1 rfl).trans (by decide),
    (((trim_flag_overload (.bool true) (.bool false)).1 true rfl).2.2 browser page
      (.str "p")).trans (by decide),
    ((trim_flag_overload (.str "data-copy") (.bool true)).2 (by decide)).1 true rfl,
    ((trim_flag_overload (.str "data-copy") .undefined).2 (by decide)).2 rfl⟩

/-! ### Evaluations of the embedding -/

theorem trimReplace_samples :
    trimReplace " b " = "b" ∧ trimReplace " \t\n " = "" ∧ trimReplace "a  b\u00a0" = "a  b" := by
  decide

theorem toStr_samples :
    (JSVal.arr []).toStr = some ""
    ∧ (JSVal.arr [.num ⟨"1", false⟩, .null, .arr [.str "x"]]).toStr = some "1,,x"
    ∧ emptyObject.toStr = some "[object Object]" := by
  decide

theorem dispatch_samples :
    clipboard browser page [.str "isSupported"] = (.returned true, page)
    ∧ clipboard browser page [.str "clear"] = clear browser page
    ∧ clipboard browser page [.str "insert", .str "x"] = insert browser page (.str "x")
    ∧ (clipboard browser page [.str "toString"]).1 = .foreign "toString"
    ∧ (clipboard browser page [.str ""]).1 = .threw .syntaxError := by
  decide

end Clipboard
